import Mathlib

/-!
Shallow embedding of the Wildnet-3-Realtime Solana pool monitor
(`src/utils/webhookHandler.js`, `src/utils/databaseClient.js`,
`src/utils/retryHelper.js`, `src/utils/defiLlamaClient.js`,
`src/utils/jupiterClient.js`, `server.js`), together with theorems
checking the natural-language specification against that code.

JS conventions are modelled explicitly: absent (`undefined`) fields are
`Option.none`; the JS `x || d` default for strings maps the empty string
and `none` to the default; the JS `x || null` default for numbers maps
`0` and `none` to `none`; functions whose JS bodies sit inside
`try { .. } catch { return null }` are total Lean functions returning
`Option`, so "does not throw" is structural.
-/

namespace Wildnet

/-- Native SOL mint constant filtered out by the parser (webhookHandler.js line 35). -/
def nativeMint : String := "So11111111111111111111111111111111111111112"

/-- SPL token program id excluded from pool-address candidates. -/
def tokenProgramId : String := "TokenkegQfeZyiNwAJbNbGKPFXCWuBvf9Ss623VQ5DA"

/-- System program id excluded from pool-address candidates. -/
def systemProgramId : String := "11111111111111111111111111111111"

/-- Associated-token-account program id excluded from pool-address candidates. -/
def ataProgramId : String := "ATokenGPvbdGVxr1b2hvZbsiqW5xWH25efTNsLJA8knL"

/-- Raydium AMM program id excluded from pool-address candidates. -/
def raydiumProgramId : String := "675kPX9MHTjS2zt1qfr1NYHuzeLXfQM9H24wFSUt1Mp8"

/-- One entry of `transaction.tokenTransfers`; `mint` may be absent. -/
structure TokenTransfer where
  mint : Option String
deriving Repr, DecidableEq

/-- One entry of `transaction.accountData`; `account` may be absent. -/
structure AccountEntry where
  account : Option String
deriving Repr, DecidableEq

/-- A webhook transaction notification.  Optional fields model JS
`undefined`.  `accountData` is read by the modular parser
(webhookHandler.js), `accounts` by the legacy parser (server.js). -/
structure Tx where
  type : String
  source : Option String
  signature : String
  timestamp : Int
  tokenTransfers : Option (List TokenTransfer)
  accountData : Option (List AccountEntry)
  accounts : Option (List String)
  feePayer : Option String
deriving Repr, DecidableEq

/-- The parsed pool candidate returned by `parsePoolFromTransaction`.
`timestampMs` models `new Date(transaction.timestamp * 1000)`. -/
structure PoolCandidate where
  tokenA : String
  tokenB : String
  poolAddress : String
  signature : String
  timestampMs : Int
  source : String
deriving Repr, DecidableEq

/-- JS string default `s || dflt`: `undefined` and the empty string are falsy. -/
def jsStr (s : Option String) (dflt : String) : String :=
  match s with
  | none => dflt
  | some s => if s = "" then dflt else s

/-- `transaction.tokenTransfers.map(t => t.mint).filter(m => m && m !== SOL)`:
the raw list of non-native mint values in transfer encounter order,
duplicates kept (webhookHandler.js lines 33-36 before the `Set`, and the
`forEach` collecting `nonSolTokens` in server.js lines 143-148). -/
def mintCandidates (ts : List TokenTransfer) : List String :=
  (ts.filterMap (·.mint)).filter (fun m => decide (m ≠ "" ∧ m ≠ nativeMint))

/-- Structural worker for `dedupFirst`; the fuel argument is only a
termination device and never runs out when it starts at the list length. -/
def dedupFirstFuel : Nat → List String → List String
  | _, [] => []
  | 0, _ :: _ => []
  | Nat.succ n, x :: xs => x :: dedupFirstFuel n (xs.filter (fun y => decide (y ≠ x)))

/-- `[...new Set(list)]`: deduplication keeping the first occurrence of
each value, preserving insertion order. -/
def dedupFirst (l : List String) : List String := dedupFirstFuel l.length l

/-- The account filter of webhookHandler.js lines 44-53: the entry's
`account` must be truthy, differ from the fee payer, not be one of the
collected token mints, and not be the native mint or one of the four
infrastructure program ids. -/
def accountEligible (tokenMints : List String) (feePayer : Option String)
    (e : AccountEntry) : Bool :=
  match e.account with
  | none => false
  | some a =>
    decide (a ≠ "" ∧ some a ≠ feePayer ∧ a ∉ tokenMints ∧
      a ≠ nativeMint ∧ a ≠ tokenProgramId ∧ a ≠ systemProgramId ∧
      a ≠ ataProgramId ∧ a ≠ raydiumProgramId)

/-- `WebhookHandler.parsePoolFromTransaction` (webhookHandler.js lines
17-76).  Returns `none` where the JS returns `null`; the surrounding
`try`/`catch` makes the JS function non-throwing, which the totality of
this definition models. -/
def parsePoolFromTransaction (tx : Tx) : Option PoolCandidate :=
  match tx.tokenTransfers with
  | none => none
  | some ts =>
    if ts.length < 2 then none
    else
      let tokenMints := dedupFirst (mintCandidates ts)
      if tokenMints.length < 2 then none
      else
        let found : Option String :=
          match tx.accountData with
          | none => none
          | some entries =>
            (entries.find? (accountEligible tokenMints tx.feePayer)).bind (·.account)
        let detected : String :=
          match found with
          | none => tx.signature
          | some a => if a = "" then tx.signature else a
        some {
          tokenA := tokenMints.getD 0 "",
          tokenB := tokenMints.getD 1 "",
          poolAddress := detected,
          signature := tx.signature,
          timestampMs := tx.timestamp * 1000,
          source := jsStr tx.source "unknown" }

/-- The account filter of the legacy parser (server.js lines 172-181),
operating directly on account identifier strings.  Unlike the modular
filter there is no truthiness check on the account itself. -/
def serverAccountEligible (finalTokens : List String) (feePayer : Option String)
    (a : String) : Bool :=
  decide (some a ≠ feePayer ∧ a ∉ finalTokens ∧
    a ≠ nativeMint ∧ a ≠ tokenProgramId ∧ a ≠ systemProgramId ∧
    a ≠ ataProgramId ∧ a ≠ raydiumProgramId)

/-- The legacy `parsePoolFromTransaction` of server.js lines 91-210:
requires `type === "CREATE_POOL"`, collects non-SOL mints into a `Set`,
and scans `transaction.accounts` (plain strings) for the pool address. -/
def parsePoolFromTransactionServer (tx : Tx) : Option PoolCandidate :=
  match tx.tokenTransfers with
  | none => none
  | some ts =>
    if tx.type ≠ "CREATE_POOL" then none
    else
      let finalTokens := dedupFirst (mintCandidates ts)
      if finalTokens.length < 2 then none
      else
        let found : Option String :=
          match tx.accounts with
          | none => none
          | some accts => accts.find? (serverAccountEligible finalTokens tx.feePayer)
        let detected : String :=
          match found with
          | none => tx.signature
          | some a => if a = "" then tx.signature else a
        some {
          tokenA := finalTokens.getD 0 "",
          tokenB := finalTokens.getD 1 "",
          poolAddress := detected,
          signature := tx.signature,
          timestampMs := tx.timestamp * 1000,
          source := jsStr tx.source "unknown" }

/-! ### Database model (databaseClient.js, Prisma-backed) -/

/-- A persisted pool row (`prisma.pool`). -/
structure StoredPool where
  id : Nat
  tokenA : String
  tokenB : String
  poolAddress : String
  source : String
  signature : String
  apy : Option Int
  tvl : Option Int
  volume24h : Option Int
deriving Repr, DecidableEq

/-- A persisted pool-event row (`prisma.poolEvent`).  The `rawTokenA` /
`rawTokenB` fields model the token-metadata snapshot serialized into
`rawData` (webhookHandler.js lines 122-133). -/
structure StoredEvent where
  id : Nat
  poolId : Nat
  eventType : String
  signature : String
  rawTokenA : Option String
  rawTokenB : Option String
deriving Repr, DecidableEq

/-- The relational store: pools and pool events. -/
structure Db where
  pools : List StoredPool
  events : List StoredEvent
deriving Repr, DecidableEq

/-- `DatabaseClient.poolExists` (databaseClient.js lines 36-41):
`findUnique` keyed on `poolAddress`, coerced to a boolean. -/
def poolExists (db : Db) (addr : String) : Bool :=
  db.pools.any (fun p => p.poolAddress == addr)

/-- Number of stored pool rows carrying a given `poolAddress`. -/
def countPoolsAt (db : Db) (addr : String) : Nat :=
  (db.pools.filter (fun p => p.poolAddress == addr)).length

/-- JS numeric default `v || null`: `undefined`, `null` and `0` are falsy
and collapse to `null`. -/
def jsNumOrNull : Option Int → Option Int
  | none => none
  | some v => if v = 0 then none else some v

/-- The input record handed to `DatabaseClient.storePool`; optional
fields model JS `undefined`. -/
structure PoolInput where
  tokenA : String
  tokenB : String
  poolAddress : String
  source : Option String
  signature : String
  apy : Option Int
  tvl : Option Int
  volume24h : Option Int
deriving Repr, DecidableEq

/-- The row built by `DatabaseClient.storePool` (databaseClient.js lines
48-69): `source` defaults to "Unknown" when falsy, and each of `apy`,
`tvl`, `volume24h` goes through `v || null`. -/
def mkStoredPool (id : Nat) (pd : PoolInput) : StoredPool :=
  { id := id,
    tokenA := pd.tokenA,
    tokenB := pd.tokenB,
    poolAddress := pd.poolAddress,
    source := jsStr pd.source "Unknown",
    signature := pd.signature,
    apy := jsNumOrNull pd.apy,
    tvl := jsNumOrNull pd.tvl,
    volume24h := jsNumOrNull pd.volume24h }

/-- `DatabaseClient.storePool`: inserts the coerced row and returns it. -/
def storePool (db : Db) (pd : PoolInput) : StoredPool × Db :=
  let p := mkStoredPool db.pools.length pd
  (p, { db with pools := db.pools ++ [p] })

/-- `DatabaseClient.storeEvent`: appends a pool-event row. -/
def storeEvent (db : Db) (poolId : Nat) (sig : String) (eventType : String)
    (rawTokenA rawTokenB : Option String) : Db :=
  { db with
    events := db.events ++
      [{ id := db.events.length, poolId := poolId, eventType := eventType,
         signature := sig, rawTokenA := rawTokenA, rawTokenB := rawTokenB }] }

/-- Insertion step for the descending-APY ordering of `getPoolsWithApy`
(`orderBy: { apy: "desc" }`); rows are compared on their APY value. -/
def insertByApyDesc (p : StoredPool) : List StoredPool → List StoredPool
  | [] => [p]
  | q :: qs => if q.apy.getD 0 < p.apy.getD 0 then p :: q :: qs else q :: insertByApyDesc p qs

/-- Descending-APY sort used by the `getPoolsWithApy` model. -/
def sortByApyDesc (l : List StoredPool) : List StoredPool :=
  l.foldr insertByApyDesc []

/-- `DatabaseClient.getPoolsWithApy` (databaseClient.js lines 113-121):
rows with non-null `apy`, ordered by `apy` descending, limited. -/
def getPoolsWithApy (db : Db) (limit : Nat) : List StoredPool :=
  (sortByApyDesc (db.pools.filter (fun p => p.apy.isSome))).take limit

/-! ### Enrichment environment and the ingestion pipeline -/

/-- The APY payload assembled by `DefiLlamaClient.getBestApyForMint`;
only the fields consumed downstream are modelled, each possibly absent. -/
structure ApyData where
  apy : Option Int
  tvl : Option Int
deriving Repr, DecidableEq

/-- External collaborators of `WebhookHandler.savePoolToDatabase`.
`defiLlama` models `DefiLlamaClient.getBestApyForMint`, which rethrows
its errors after `RetryHelper` exhausts its retries
(defiLlamaClient.js lines 115-118), hence the `Except`.  `jupiter`
models `JupiterClient.getFullTokenData`, whose own `try`/`catch`
absorbs every error into `null` (jupiterClient.js), hence a total
function returning the token symbol when found. -/
structure EnrichEnv where
  defiLlama : String → Except Unit (Option ApyData)
  jupiter : String → Option String

/-- The yield-lookup sequence of webhookHandler.js lines 98-101:
query `tokenA`; when the result is falsy, query `tokenB`.  A thrown
error at either step propagates. -/
def fetchApyData (env : EnrichEnv) (tokenA tokenB : String) :
    Except Unit (Option ApyData) :=
  match env.defiLlama tokenA with
  | .error e => .error e
  | .ok (some d) => .ok (some d)
  | .ok none => env.defiLlama tokenB

/-- `WebhookHandler.savePoolToDatabase` (webhookHandler.js lines
83-146).  The body runs inside `try`/`catch`; a thrown enrichment error
reaches the `catch` and yields `null` with the database untouched.  The
rate limiter delay has no effect on the stored data and is modelled
separately. -/
def savePoolToDatabase (env : EnrichEnv) (db : Db) (pd : PoolCandidate) :
    Option StoredPool × Db :=
  if poolExists db pd.poolAddress then (none, db)
  else
    match fetchApyData env pd.tokenA pd.tokenB with
    | .error _ => (none, db)
    | .ok apyData =>
      let tokenAInfo := env.jupiter pd.tokenA
      let tokenBInfo := env.jupiter pd.tokenB
      let poolInput : PoolInput :=
        { tokenA := pd.tokenA,
          tokenB := pd.tokenB,
          poolAddress := pd.poolAddress,
          signature := pd.signature,
          source := some pd.source,
          apy := jsNumOrNull (apyData.bind (·.apy)),
          tvl := jsNumOrNull (apyData.bind (·.tvl)),
          volume24h := none }
      let r := storePool db poolInput
      let db2 := storeEvent r.2 r.1.id pd.signature "created" tokenAInfo tokenBInfo
      (some r.1, db2)

/-- One element of the webhook batch.  `nullItem` models a `null` /
`undefined` array element, on which `transaction.type` throws;
`prim` models a non-null primitive, on which `transaction.type` is
`undefined` and the item is skipped. -/
inductive BatchItem
  | tx (t : Tx)
  | nullItem
  | prim
deriving Repr, DecidableEq

/-- One iteration of the loop in `WebhookHandler.processWebhookPayload`
(webhookHandler.js lines 153-170).  There is no per-item `try`/`catch`
in the loop: a throw propagates (`Except.error`). -/
def processItem (env : EnrichEnv) (db : Db) : BatchItem → Except Unit Db
  | .nullItem => .error ()
  | .prim => .ok db
  | .tx t =>
    if t.type = "ENHANCED_TRANSACTION" ∨ t.type = "CREATE_POOL" then
      match parsePoolFromTransaction t with
      | none => .ok db
      | some pd => .ok (savePoolToDatabase env db pd).2
    else .ok db

/-- `WebhookHandler.processWebhookPayload` over a batch: sequential,
stopping with the state accumulated so far when an item throws.  The
boolean records whether the loop ran to completion. -/
def processWebhookPayload (env : EnrichEnv) : List BatchItem → Db → Bool × Db
  | [], db => (true, db)
  | item :: rest, db =>
    match processItem env db item with
    | .error _ => (false, db)
    | .ok db1 => processWebhookPayload env rest db1

/-- The request body of `POST /webhook/helius` as the modular server
reads it (server.js lines 369-384): `req.body || []` defaults a falsy
body to the empty batch, an array is iterated, and a single non-array
object is handed to `for ... of`, which throws because a plain object
is not iterable. -/
inductive WebhookBody
  | arr (items : List BatchItem)
  | obj (t : Tx)
  | nullBody
deriving Repr, DecidableEq

/-- The modular `POST /webhook/helius` endpoint (server.js lines
369-384): 200 when `processWebhookPayload` returns, 500 when it throws;
database mutations performed before the throw persist. -/
def handleWebhook (env : EnrichEnv) (body : WebhookBody) (db : Db) : Nat × Db :=
  match body with
  | .nullBody => (200, db)
  | .obj _ => (500, db)
  | .arr items =>
    let r := processWebhookPayload env items db
    (if r.1 then 200 else 500, r.2)

/-! ### RetryHelper (retryHelper.js) -/

/-- Backoff delay in milliseconds after the failure of attempt `i`
(0-indexed): `Math.pow(2, i) * 1000`. -/
def backoffDelayMs (i : Nat) : Nat := 2 ^ i * 1000

/-- Observable trace of one `RetryHelper.withBackoff` run: the returned
or thrown value (`none` models the `undefined` returned when the loop
never runs), the sleep durations between attempts, and the number of
invocations of the wrapped operation. -/
structure RetryTrace (E A : Type) where
  result : Option (Except E A)
  delays : List Nat
  calls : Nat

/-- The loop of `RetryHelper.withBackoff` from iteration `i` on: try the
operation; on success return; on the last failure rethrow; otherwise
sleep `2^i` seconds and continue. -/
def withBackoffGo (f : Nat → Except E A) (maxRetries i : Nat) : RetryTrace E A :=
  if h : i < maxRetries then
    match f i with
    | .ok v => ⟨some (.ok v), [], 1⟩
    | .error e =>
      if i = maxRetries - 1 then ⟨some (.error e), [], 1⟩
      else
        let t := withBackoffGo f maxRetries (i + 1)
        ⟨t.result, backoffDelayMs i :: t.delays, t.calls + 1⟩
  else ⟨none, [], 0⟩
termination_by maxRetries - i
decreasing_by omega

/-- `RetryHelper.withBackoff(fn, maxRetries)` (retryHelper.js lines
4-18), with the operation's outcome at attempt `i` given by `f i`. -/
def withBackoff (f : Nat → Except E A) (maxRetries : Nat) : RetryTrace E A :=
  withBackoffGo f maxRetries 0

/-! ### RateLimiter (rateLimiter.js, bundled with databaseClient.js) -/

/-- The mutable state of a `RateLimiter` instance: the timestamp
recorded at the end of the previous `wait()` and the configured delay,
both in milliseconds. -/
structure RateLimiterState where
  lastCall : Nat
  delay : Nat
deriving Repr, DecidableEq

/-- `RateLimiter.wait()` called at clock time `now`: returns the release
time (when the `setTimeout` completes, modelling the sleep as exact) and
the updated state, whose `lastCall` is recorded at the end of `wait()`. -/
def RateLimiterState.wait (st : RateLimiterState) (now : Nat) :
    Nat × RateLimiterState :=
  let timeSinceLastCall := now - st.lastCall
  if timeSinceLastCall < st.delay then
    let release := now + (st.delay - timeSinceLastCall)
    (release, { st with lastCall := release })
  else
    (now, { st with lastCall := now })

/-! ### Concrete inputs and spec-side predicates used by the theorems -/

/-- Transaction with no `tokenTransfers` field, used as the C1 witness. -/
def txNoTransfers : Tx :=
  { type := "CREATE_POOL", source := none, signature := "sigW1",
    timestamp := 0, tokenTransfers := none, accountData := none,
    accounts := none, feePayer := none }

/-- Transaction with two distinct mints, used as the C2 witness. -/
def txTwoMints : Tx :=
  { type := "CREATE_POOL", source := none, signature := "sigW2",
    timestamp := 7,
    tokenTransfers := some [⟨some "MintOne"⟩, ⟨some "MintTwo"⟩],
    accountData := none, accounts := none, feePayer := none }

/-- `FirstWhere P l x`: `x` is the first element of `l` satisfying `P`. -/
def FirstWhere {α : Type} (P : α → Prop) (l : List α) (x : α) : Prop :=
  ∃ l1 l2, l = l1 ++ x :: l2 ∧ P x ∧ ∀ y ∈ l1, ¬ P y

/-- Spec-side eligibility of an account entry as a pool-address
candidate, following the amended claim: the account value is present and
non-empty, differs from the fee payer, is none of the distinct
non-native mints collected from the transfers, and is neither the native
mint nor one of the four infrastructure program ids. -/
def SpecEligibleAccount (mints : List String) (feePayer : Option String)
    (e : AccountEntry) : Prop :=
  ∃ a, e.account = some a ∧ a ≠ "" ∧ some a ≠ feePayer ∧ a ∉ mints ∧
    a ≠ nativeMint ∧ a ≠ tokenProgramId ∧ a ≠ systemProgramId ∧
    a ≠ ataProgramId ∧ a ≠ raydiumProgramId

/-- Transaction with three distinct non-native mints whose first account
entry is the third mint: the claim's exclusion list ("the two token
mints") would accept it, the code's exclusion list (all collected mints)
rejects it. -/
def txThreeMints : Tx :=
  { type := "CREATE_POOL", source := none, signature := "SigC3",
    timestamp := 0,
    tokenTransfers := some [⟨some "MintOne"⟩, ⟨some "MintTwo"⟩, ⟨some "MintThree"⟩],
    accountData := some [⟨some "MintThree"⟩, ⟨some "PoolAcct3"⟩],
    accounts := none, feePayer := some "FeePayer3" }

/-- The candidate produced by parsing `txThreeMints`. -/
def candThreeMints : PoolCandidate :=
  { tokenA := "MintOne", tokenB := "MintTwo", poolAddress := "PoolAcct3",
    signature := "SigC3", timestampMs := 0, source := "unknown" }

/-- The spec's example transaction (spec.md §8), in the `accounts` shape
consumed by the legacy server.js parser the claim cites. -/
def txSpecExample : Tx :=
  { type := "CREATE_POOL", source := none, signature := "sig1",
    timestamp := 1700000000,
    tokenTransfers := some [⟨some "TokenA..."⟩,
      ⟨some "So11111111111111111111111111111111111111112"⟩,
      ⟨some "TokenB..."⟩],
    accountData := none,
    accounts := some ["feePayer", "PoolAcct", "TokenA...", "TokenB..."],
    feePayer := some "feePayer" }

/-- The empty database. -/
def dbEmpty : Db := { pools := [], events := [] }

/-- Environment whose yield lookup always throws (DefiLlama failure
after retries are exhausted). -/
def envFailYield : EnrichEnv :=
  { defiLlama := fun _ => .error (), jupiter := fun _ => none }

/-- Environment whose yield lookup completes with no data and whose
token-metadata lookup finds nothing. -/
def envNoData : EnrichEnv :=
  { defiLlama := fun _ => .ok none, jupiter := fun _ => none }

/-- A pool candidate used in concrete runs of the pipeline. -/
def candA : PoolCandidate :=
  { tokenA := "TokA", tokenB := "TokB", poolAddress := "Pool1",
    signature := "Sig5", timestampMs := 0, source := "unknown" }

/-- The pool row stored by running the pipeline on `candA` from the
empty database under `envNoData`. -/
def storedA : StoredPool :=
  { id := 0, tokenA := "TokA", tokenB := "TokB", poolAddress := "Pool1",
    source := "unknown", signature := "Sig5", apy := none, tvl := none,
    volume24h := none }

/-- The event row appended alongside `storedA`. -/
def eventA : StoredEvent :=
  { id := 0, poolId := 0, eventType := "created", signature := "Sig5",
    rawTokenA := none, rawTokenB := none }

/-- The database after that first successful save. -/
def dbAfterA : Db := { pools := [storedA], events := [eventA] }

/-- The operation that fails twice then succeeds, for the C7 witness. -/
def failTwiceThenOk : Nat → Except Nat Nat :=
  fun i => if i < 2 then .error i else .ok 99

/-- The single transaction notification used for C9 concrete runs. -/
def txC9 : Tx :=
  { type := "CREATE_POOL", source := none, signature := "sig9",
    timestamp := 0, tokenTransfers := none, accountData := none,
    accounts := none, feePayer := none }

/-- Input record with APY, TVL and volume all exactly 0 and no source. -/
def inputZeroApy : PoolInput :=
  { tokenA := "TokA", tokenB := "TokB", poolAddress := "PoolZ",
    source := none, signature := "SigZ", apy := some 0, tvl := some 0,
    volume24h := some 0 }

/-! ### Helper lemmas -/

theorem find?_eq_head?_filter {α : Type} (p : α → Bool) (l : List α) :
    l.find? p = (l.filter p).head? := by
  induction l with
  | nil => rfl
  | cons a l ih =>
    rw [List.find?_cons, List.filter_cons]
    cases hpa : p a with
    | true => simp
    | false => simpa using ih

theorem find?_eq_some_split {α : Type} (p : α → Bool) :
    ∀ (l : List α) (x : α), l.find? p = some x →
      ∃ l1 l2, l = l1 ++ x :: l2 ∧ p x = true ∧ ∀ y ∈ l1, p y = false := by
  intro l
  induction l with
  | nil => intro x h; simp [List.find?] at h
  | cons a l ih =>
    intro x h
    cases hpa : p a with
    | true =>
      rw [List.find?_cons, hpa] at h
      obtain rfl : a = x := by simpa using h
      exact ⟨[], l, rfl, hpa, by simp⟩
    | false =>
      rw [List.find?_cons, hpa] at h
      obtain ⟨l1, l2, rfl, hx, hl1⟩ := ih x h
      refine ⟨a :: l1, l2, rfl, hx, ?_⟩
      intro y hy
      rcases List.mem_cons.mp hy with rfl | hy
      · exact hpa
      · exact hl1 y hy

theorem dedupFirstFuel_congr :
    ∀ (n m : Nat) (l : List String), l.length ≤ n → l.length ≤ m →
      dedupFirstFuel n l = dedupFirstFuel m l := by
  intro n
  induction n with
  | zero =>
    intro m l hn _
    have : l = [] := List.eq_nil_of_length_eq_zero (Nat.le_zero.mp hn)
    subst this
    cases m <;> rfl
  | succ n ih =>
    intro m l hn hm
    cases l with
    | nil => cases m <;> rfl
    | cons x xs =>
      cases m with
      | zero => simp at hm
      | succ m =>
        show x :: dedupFirstFuel n (xs.filter (fun y => decide (y ≠ x))) =
          x :: dedupFirstFuel m (xs.filter (fun y => decide (y ≠ x)))
        have hf := List.length_filter_le (fun y => decide (y ≠ x)) xs
        rw [ih m _ (by simp at hn; omega) (by simp at hm; omega)]

theorem dedupFirst_nil : dedupFirst [] = [] := rfl

theorem dedupFirst_cons (x : String) (xs : List String) :
    dedupFirst (x :: xs) = x :: dedupFirst (xs.filter (fun y => decide (y ≠ x))) := by
  show x :: dedupFirstFuel xs.length (xs.filter (fun y => decide (y ≠ x))) =
    x :: dedupFirst (xs.filter (fun y => decide (y ≠ x)))
  rw [dedupFirst,
    dedupFirstFuel_congr xs.length (xs.filter (fun y => decide (y ≠ x))).length
      (xs.filter (fun y => decide (y ≠ x)))
      (List.length_filter_le _ xs) (Nat.le_refl _)]

theorem dedupFirst_eq_nil_iff (l : List String) : dedupFirst l = [] ↔ l = [] := by
  cases l with
  | nil => simp [dedupFirst_nil]
  | cons x xs => simp [dedupFirst_cons]

theorem mem_of_mem_dedupFirstFuel :
    ∀ (n : Nat) (l : List String) (a : String), a ∈ dedupFirstFuel n l → a ∈ l := by
  intro n
  induction n with
  | zero =>
    intro l a h
    cases l with
    | nil => simp [dedupFirstFuel] at h
    | cons x xs => simp [dedupFirstFuel] at h
  | succ n ih =>
    intro l a h
    cases l with
    | nil => simp [dedupFirstFuel] at h
    | cons x xs =>
      rcases List.mem_cons.mp h with rfl | h2
      · exact List.mem_cons_self _ _
      · exact List.mem_cons_of_mem _ (List.mem_filter.mp (ih _ a h2)).1

theorem mem_of_mem_dedupFirst (l : List String) (a : String) :
    a ∈ dedupFirst l → a ∈ l :=
  mem_of_mem_dedupFirstFuel l.length l a

theorem pair_of_two_le_dedupFirst (l : List String)
    (h : 2 ≤ (dedupFirst l).length) : ∃ a ∈ l, ∃ b ∈ l, a ≠ b := by
  cases l with
  | nil => simp [dedupFirst_nil] at h
  | cons x xs =>
    rw [dedupFirst_cons] at h
    cases hq : dedupFirst (xs.filter (fun y => decide (y ≠ x))) with
    | nil => rw [hq] at h; simp at h
    | cons q qs =>
      have hqmem : q ∈ dedupFirst (xs.filter (fun y => decide (y ≠ x))) := by
        rw [hq]; exact List.mem_cons_self _ _
      have hqf := List.mem_filter.mp (mem_of_mem_dedupFirst _ _ hqmem)
      have hqx : q ≠ x := by simpa using hqf.2
      exact ⟨x, List.mem_cons_self _ _, q, List.mem_cons_of_mem _ hqf.1, hqx.symm⟩

theorem mintCandidates_length_le (ts : List TokenTransfer) :
    (mintCandidates ts).length ≤ ts.length :=
  le_trans (List.length_filter_le _ _) (List.length_filterMap_le _ _)

/-- Successful-parse shape of `parsePoolFromTransaction`: once both
guards pass, the returned candidate is the record built by the code. -/
theorem parse_eq_some (tx : Tx) (ts : List TokenTransfer)
    (hts : tx.tokenTransfers = some ts)
    (h2 : ¬ ts.length < 2)
    (hd : ¬ (dedupFirst (mintCandidates ts)).length < 2) :
    parsePoolFromTransaction tx = some {
      tokenA := (dedupFirst (mintCandidates ts)).getD 0 "",
      tokenB := (dedupFirst (mintCandidates ts)).getD 1 "",
      poolAddress :=
        (match (match tx.accountData with
                | none => none
                | some entries =>
                  (entries.find?
                    (accountEligible (dedupFirst (mintCandidates ts)) tx.feePayer)).bind
                    (·.account)) with
         | none => tx.signature
         | some a => if a = "" then tx.signature else a),
      signature := tx.signature,
      timestampMs := tx.timestamp * 1000,
      source := jsStr tx.source "unknown" } := by
  simp only [parsePoolFromTransaction, hts, if_neg h2, if_neg hd]

/-- Field-level view of a successful parse. -/
theorem parse_fields (tx : Tx) (ts : List TokenTransfer)
    (hts : tx.tokenTransfers = some ts)
    (h2 : ¬ ts.length < 2)
    (hd : ¬ (dedupFirst (mintCandidates ts)).length < 2) :
    ∃ c, parsePoolFromTransaction tx = some c ∧
      c.tokenA = (dedupFirst (mintCandidates ts)).getD 0 "" ∧
      c.tokenB = (dedupFirst (mintCandidates ts)).getD 1 "" ∧
      c.poolAddress =
        (match (match tx.accountData with
                | none => none
                | some entries =>
                  (entries.find?
                    (accountEligible (dedupFirst (mintCandidates ts)) tx.feePayer)).bind
                    (·.account)) with
         | none => tx.signature
         | some a => if a = "" then tx.signature else a) ∧
      c.signature = tx.signature :=
  ⟨_, parse_eq_some tx ts hts h2 hd, rfl, rfl, rfl, rfl⟩

/-! ### Claim C1 -/

/-- C1: for every transaction whose `tokenTransfers` field is absent or
has fewer than 2 entries, or whose transfers contain fewer than 2
distinct non-native mint identifiers, `parsePoolFromTransaction`
returns null.  (It cannot throw: the embedding is a total function,
mirroring the JS `try`/`catch` that converts any internal error to
`null`.) -/
theorem c1_parse_insufficient_returns_null (tx : Tx)
    (h : tx.tokenTransfers = none ∨
      ∃ ts, tx.tokenTransfers = some ts ∧
        (ts.length < 2 ∨
          ¬ ∃ a ∈ mintCandidates ts, ∃ b ∈ mintCandidates ts, a ≠ b)) :
    parsePoolFromTransaction tx = none := by
  rcases h with h | ⟨ts, hts, hcase⟩
  · simp [parsePoolFromTransaction, h]
  · rcases hcase with hlen | hnopair
    · simp [parsePoolFromTransaction, hts, if_pos hlen]
    · by_cases hlen : ts.length < 2
      · simp [parsePoolFromTransaction, hts, if_pos hlen]
      · have hd : (dedupFirst (mintCandidates ts)).length < 2 := by
          by_contra hd2
          push_neg at hd2
          exact hnopair (pair_of_two_le_dedupFirst _ hd2)
        simp [parsePoolFromTransaction, hts, if_neg hlen, if_pos hd]

/-- Witness for C1 at a concrete transaction with absent `tokenTransfers`. -/
theorem c1_parse_insufficient_returns_null_witness :
    parsePoolFromTransaction txNoTransfers = none :=
  c1_parse_insufficient_returns_null txNoTransfers (Or.inl rfl)

/-! ### Claim C2 -/

/-- C2: for every transaction with at least 2 distinct non-native mints
among its token transfers, `parsePoolFromTransaction` returns a
candidate whose `tokenA` is the first non-native mint in transfer
encounter order, whose `tokenB` is the next non-native mint distinct
from `tokenA`, and `tokenA ≠ tokenB`. -/
theorem c2_first_two_distinct_mints (tx : Tx) (ts : List TokenTransfer)
    (hts : tx.tokenTransfers = some ts)
    (hpair : ∃ a ∈ mintCandidates ts, ∃ b ∈ mintCandidates ts, a ≠ b) :
    ∃ c, parsePoolFromTransaction tx = some c ∧
      some c.tokenA = (mintCandidates ts).head? ∧
      (mintCandidates ts).find? (fun m => decide (m ≠ c.tokenA)) = some c.tokenB ∧
      c.tokenA ≠ c.tokenB := by
  obtain ⟨a, ha, b, hb, hab⟩ := hpair
  cases hmcl : mintCandidates ts with
  | nil => rw [hmcl] at ha; simp at ha
  | cons x xs =>
    rw [hmcl] at ha hb
    obtain ⟨c0, hc0xs, hc0x⟩ : ∃ c0, c0 ∈ xs ∧ c0 ≠ x := by
      rcases eq_or_ne a x with rfl | hax
      · have hbx : b ≠ a := fun hba => hab hba.symm
        exact ⟨b, (List.mem_cons.mp hb).resolve_left hbx, hbx⟩
      · exact ⟨a, (List.mem_cons.mp ha).resolve_left hax, hax⟩
    have hfil : c0 ∈ xs.filter (fun y => decide (y ≠ x)) :=
      List.mem_filter.mpr ⟨hc0xs, by simpa using hc0x⟩
    cases hq : dedupFirst (xs.filter (fun y => decide (y ≠ x))) with
    | nil =>
      rw [dedupFirst_eq_nil_iff] at hq
      rw [hq] at hfil
      simp at hfil
    | cons q qs =>
      have hqmem : q ∈ dedupFirst (xs.filter (fun y => decide (y ≠ x))) := by
        rw [hq]; exact List.mem_cons_self _ _
      have hqf := List.mem_filter.mp (mem_of_mem_dedupFirst _ _ hqmem)
      have hqx : q ≠ x := by simpa using hqf.2
      have hded : dedupFirst (mintCandidates ts) = x :: q :: qs := by
        rw [hmcl, dedupFirst_cons, hq]
      have hdlen : ¬ (dedupFirst (mintCandidates ts)).length < 2 := by
        rw [hded]; simp
      have hmclen : 2 ≤ (mintCandidates ts).length := by
        rw [hmcl]
        cases xs with
        | nil => simp at hc0xs
        | cons y ys => simp [Nat.succ_le_succ, Nat.succ_le_succ_iff]
      have hlen : ¬ ts.length < 2 := by
        have := mintCandidates_length_le ts
        omega
      obtain ⟨c, hp, hA, hB, _, _⟩ := parse_fields tx ts hts hlen hdlen
      have hAx : c.tokenA = x := by rw [hA, hded]; rfl
      have hBq : c.tokenB = q := by rw [hB, hded]; rfl
      refine ⟨c, hp, ?_, ?_, ?_⟩
      · rw [hAx]; rfl
      · rw [hAx, hBq]
        rw [List.find?_cons]
        rw [show (decide (x ≠ x)) = false by simp]
        show List.find? (fun m => decide (m ≠ x)) xs = some q
        rw [find?_eq_head?_filter]
        have hh : (dedupFirst (xs.filter (fun y => decide (y ≠ x)))).head? =
            (xs.filter (fun y => decide (y ≠ x))).head? := by
          cases hc : xs.filter (fun y => decide (y ≠ x)) with
          | nil => simp [hc, dedupFirst_nil]
          | cons z zs => simp [hc, dedupFirst_cons]
        rw [← hh, hq]
        rfl
      · rw [hAx, hBq]
        exact fun hxq => hqx hxq.symm

/-- Witness for C2 at a concrete transaction with mints
`["MintOne", "MintTwo"]`. -/
theorem c2_first_two_distinct_mints_witness :
    ∃ c, parsePoolFromTransaction txTwoMints = some c ∧
      some c.tokenA = (mintCandidates [⟨some "MintOne"⟩, ⟨some "MintTwo"⟩]).head? ∧
      (mintCandidates [⟨some "MintOne"⟩, ⟨some "MintTwo"⟩]).find?
          (fun m => decide (m ≠ c.tokenA)) = some c.tokenB ∧
      c.tokenA ≠ c.tokenB :=
  c2_first_two_distinct_mints txTwoMints [⟨some "MintOne"⟩, ⟨some "MintTwo"⟩] rfl
    ⟨"MintOne", by decide, "MintTwo", by decide, by decide⟩

/-! ### Claim C3 -/

theorem accountEligible_iff (m : List String) (fp : Option String)
    (e : AccountEntry) :
    accountEligible m fp e = true ↔ SpecEligibleAccount m fp e := by
  cases he : e.account with
  | none => simp [accountEligible, he, SpecEligibleAccount]
  | some a => simp [accountEligible, he, SpecEligibleAccount]

/-- Counterexample to C3 as stated: in `txThreeMints` the first account
entry `"MintThree"` is not the fee payer, not `tokenA` (`"MintOne"`),
not `tokenB` (`"MintTwo"`), not the native mint and not any of the four
infrastructure program ids, so the claim would make it the pool address;
the code nevertheless skips it (it is one of the collected non-native
mints) and selects `"PoolAcct3"`. -/
theorem c3_counterexample :
    (parsePoolFromTransaction txThreeMints).map PoolCandidate.tokenA = some "MintOne" ∧
    (parsePoolFromTransaction txThreeMints).map PoolCandidate.tokenB = some "MintTwo" ∧
    txThreeMints.accountData = some [⟨some "MintThree"⟩, ⟨some "PoolAcct3"⟩] ∧
    ("MintThree" : String) ≠ "" ∧
    some ("MintThree" : String) ≠ txThreeMints.feePayer ∧
    ("MintThree" : String) ≠ "MintOne" ∧
    ("MintThree" : String) ≠ "MintTwo" ∧
    ("MintThree" : String) ≠ nativeMint ∧
    ("MintThree" : String) ≠ tokenProgramId ∧
    ("MintThree" : String) ≠ systemProgramId ∧
    ("MintThree" : String) ≠ ataProgramId ∧
    ("MintThree" : String) ≠ raydiumProgramId ∧
    (parsePoolFromTransaction txThreeMints).map PoolCandidate.poolAddress =
      some "PoolAcct3" ∧
    ("PoolAcct3" : String) ≠ "MintThree" := by
  decide

/-- C3 (amended): for every successfully parsed transaction, the
returned `poolAddress` is the first `accountData` entry whose account
value is present and non-empty, not the fee payer, not one of the
distinct non-native mints collected from the transfers (not merely the
two selected as `tokenA`/`tokenB`), not the native mint, and not one of
the four infrastructure program ids; if no such entry exists, the
`poolAddress` equals the transaction signature. -/
theorem c3_pool_address_selection (tx : Tx) (ts : List TokenTransfer)
    (c : PoolCandidate)
    (hts : tx.tokenTransfers = some ts)
    (hp : parsePoolFromTransaction tx = some c) :
    (c.poolAddress = tx.signature ∧
      ∀ e ∈ tx.accountData.getD [],
        ¬ SpecEligibleAccount (dedupFirst (mintCandidates ts)) tx.feePayer e) ∨
    (∃ e, FirstWhere (SpecEligibleAccount (dedupFirst (mintCandidates ts)) tx.feePayer)
        (tx.accountData.getD []) e ∧ e.account = some c.poolAddress) := by
  by_cases h2 : ts.length < 2
  · simp [parsePoolFromTransaction, hts, if_pos h2] at hp
  by_cases hd : (dedupFirst (mintCandidates ts)).length < 2
  · simp [parsePoolFromTransaction, hts, if_neg h2, if_pos hd] at hp
  obtain ⟨c2, hp2, _, _, hPA, _⟩ := parse_fields tx ts hts h2 hd
  rw [hp] at hp2
  obtain rfl : c = c2 := Option.some_inj.mp hp2
  cases had : tx.accountData with
  | none =>
    rw [had] at hPA
    simp only at hPA
    left
    exact ⟨hPA, by simp⟩
  | some entries =>
    rw [had] at hPA
    simp only at hPA
    cases hf : entries.find?
        (accountEligible (dedupFirst (mintCandidates ts)) tx.feePayer) with
    | none =>
      rw [hf] at hPA
      simp at hPA
      left
      refine ⟨hPA, ?_⟩
      intro e he hspec
      have := List.find?_eq_none.mp hf e (by simpa using he)
      exact this ((accountEligible_iff _ _ _).mpr hspec)
    | some e =>
      have helig : accountEligible (dedupFirst (mintCandidates ts)) tx.feePayer e
          = true := List.find?_some hf
      have hspec := (accountEligible_iff _ _ _).mp helig
      obtain ⟨a, hacc, hane, -, -, -, -, -, -, -⟩ := hspec
      rw [hf] at hPA
      simp at hPA
      rw [hacc] at hPA
      simp only [if_neg hane] at hPA
      right
      refine ⟨e, ?_, ?_⟩
      · obtain ⟨l1, l2, hsplit, hpe, hl1⟩ := find?_eq_some_split _ entries e hf
        refine ⟨l1, l2, by simpa using hsplit, (accountEligible_iff _ _ _).mp hpe, ?_⟩
        intro y hy hyspec
        have := hl1 y hy
        rw [(accountEligible_iff _ _ _).mpr hyspec] at this
        simp at this
      · rw [hacc, hPA]

/-- Witness for the amended C3 at `txThreeMints`: the second account
entry `"PoolAcct3"` is the first spec-eligible entry and is selected. -/
theorem c3_pool_address_selection_witness :
    (∃ c, parsePoolFromTransaction txThreeMints = some c ∧
      ((c.poolAddress = txThreeMints.signature ∧
        ∀ e ∈ txThreeMints.accountData.getD [],
          ¬ SpecEligibleAccount
            (dedupFirst (mintCandidates
              [⟨some "MintOne"⟩, ⟨some "MintTwo"⟩, ⟨some "MintThree"⟩]))
            txThreeMints.feePayer e) ∨
      (∃ e, FirstWhere
          (SpecEligibleAccount
            (dedupFirst (mintCandidates
              [⟨some "MintOne"⟩, ⟨some "MintTwo"⟩, ⟨some "MintThree"⟩]))
            txThreeMints.feePayer)
          (txThreeMints.accountData.getD []) e ∧
        e.account = some c.poolAddress))) := by
  refine ⟨candThreeMints, by decide, ?_⟩
  exact c3_pool_address_selection txThreeMints
    [⟨some "MintOne"⟩, ⟨some "MintTwo"⟩, ⟨some "MintThree"⟩]
    candThreeMints rfl (by decide)

/-! ### Claim C4 -/

/-- C4: parsing the spec's example transaction yields the candidate
`{tokenA := "TokenA...", tokenB := "TokenB...", poolAddress := "PoolAcct",
signature := "sig1", source := "unknown"}`. -/
theorem c4_spec_example_parse :
    (parsePoolFromTransactionServer txSpecExample).map PoolCandidate.tokenA =
      some "TokenA..." ∧
    (parsePoolFromTransactionServer txSpecExample).map PoolCandidate.tokenB =
      some "TokenB..." ∧
    (parsePoolFromTransactionServer txSpecExample).map PoolCandidate.poolAddress =
      some "PoolAcct" ∧
    (parsePoolFromTransactionServer txSpecExample).map PoolCandidate.signature =
      some "sig1" ∧
    (parsePoolFromTransactionServer txSpecExample).map PoolCandidate.source =
      some "unknown" := by
  decide

/-! ### Helper lemmas for the persistence pipeline -/

theorem poolExists_false_iff (db : Db) (a : String) :
    poolExists db a = false ↔ countPoolsAt db a = 0 := by
  show db.pools.any (fun p => p.poolAddress == a) = false ↔
    (db.pools.filter (fun p => p.poolAddress == a)).length = 0
  induction db.pools with
  | nil => simp
  | cons p l ih =>
    cases hp : p.poolAddress == a <;> simp [List.any_cons, List.filter_cons, hp, ih]

theorem save_skip (env : EnrichEnv) (db : Db) (pd : PoolCandidate)
    (hex : poolExists db pd.poolAddress = true) :
    savePoolToDatabase env db pd = (none, db) := by
  simp [savePoolToDatabase, hex]

theorem save_stored (env : EnrichEnv) (db : Db) (pd : PoolCandidate)
    (p : StoredPool) (db1 : Db)
    (hsave : savePoolToDatabase env db pd = (some p, db1)) :
    p.poolAddress = pd.poolAddress ∧ db1.pools = db.pools ++ [p] := by
  by_cases hex : poolExists db pd.poolAddress = true
  · rw [save_skip env db pd hex] at hsave
    simp at hsave
  · have hex' : poolExists db pd.poolAddress = false := by
      revert hex; cases poolExists db pd.poolAddress <;> simp
    rw [savePoolToDatabase] at hsave
    rw [if_neg (by simp [hex'])] at hsave
    cases hfetch : fetchApyData env pd.tokenA pd.tokenB with
    | error e => rw [hfetch] at hsave; simp at hsave
    | ok apyData =>
      rw [hfetch] at hsave
      simp only [storePool, storeEvent, Prod.mk.injEq, Option.some.injEq] at hsave
      obtain ⟨hp, hdb⟩ := hsave
      subst hp
      constructor
      · rfl
      · rw [← hdb]

theorem save_unchanged_or_append (env : EnrichEnv) (db : Db) (pd : PoolCandidate) :
    (savePoolToDatabase env db pd).2 = db ∨
    (poolExists db pd.poolAddress = false ∧ ∃ p, p.poolAddress = pd.poolAddress ∧
      (savePoolToDatabase env db pd).2.pools = db.pools ++ [p]) := by
  by_cases hex : poolExists db pd.poolAddress = true
  · left; rw [save_skip env db pd hex]
  · have hex' : poolExists db pd.poolAddress = false := by
      revert hex; cases poolExists db pd.poolAddress <;> simp
    cases hfetch : fetchApyData env pd.tokenA pd.tokenB with
    | error e =>
      left
      rw [savePoolToDatabase, if_neg (by simp [hex']), hfetch]
    | ok apyData =>
      right
      refine ⟨hex', mkStoredPool db.pools.length
        { tokenA := pd.tokenA, tokenB := pd.tokenB, poolAddress := pd.poolAddress,
          signature := pd.signature, source := some pd.source,
          apy := jsNumOrNull (apyData.bind (·.apy)),
          tvl := jsNumOrNull (apyData.bind (·.tvl)),
          volume24h := none }, rfl, ?_⟩
      rw [savePoolToDatabase, if_neg (by simp [hex']), hfetch]
      rfl

theorem countPoolsAt_after_append (db : Db) (db1 : Db) (p : StoredPool) (a : String)
    (hpools : db1.pools = db.pools ++ [p]) (hpa : p.poolAddress = a)
    (hcnt : countPoolsAt db a = 0) : countPoolsAt db1 a = 1 := by
  show (db1.pools.filter (fun q => q.poolAddress == a)).length = 1
  rw [hpools, List.filter_append]
  have h1 : (db.pools.filter (fun q => q.poolAddress == a)).length = 0 := hcnt
  have h2 : List.filter (fun q => q.poolAddress == a) [p] = [p] := by
    simp [List.filter_cons, hpa]
  simp [List.length_append, h1, h2]

/-! ### Claim C5 -/

/-- Counterexample to C5 as stated: with `Pool1` not yet persisted and
the yield lookup throwing (retries exhausted), `savePoolToDatabase`
catches the error and returns `null` with the database untouched — the
pool record is NOT persisted with null enrichment fields, because
`DefiLlamaClient.getBestApyForMint` rethrows and the single

`try`/`catch` around the whole body aborts before `storePool`. -/
theorem c5_counterexample :
    countPoolsAt dbEmpty "Pool1" = 0 ∧
    savePoolToDatabase envFailYield dbEmpty candA = (none, dbEmpty) ∧
    countPoolsAt (savePoolToDatabase envFailYield dbEmpty candA).2 "Pool1" = 0 :=
  ⟨rfl, rfl, rfl⟩

/-- C5 (amended): for a candidate whose `poolAddress` is not yet
persisted, a yield lookup that throws (after retries are exhausted)
makes `savePoolToDatabase` return `null` WITHOUT persisting the pool;
only a yield lookup that completes without throwing — including finding
no data at all — leads to persistence, then with null enrichment
fields.  (Token-metadata failures never throw:
`JupiterClient.getFullTokenData` absorbs its errors into `null`, which
the totality of `EnrichEnv.jupiter` models.) -/
theorem c5_enrichment_failure_blocks_persistence (env : EnrichEnv) (db : Db)
    (pd : PoolCandidate) (hnew : poolExists db pd.poolAddress = false) :
    (fetchApyData env pd.tokenA pd.tokenB = .error () →
      savePoolToDatabase env db pd = (none, db)) ∧
    (fetchApyData env pd.tokenA pd.tokenB = .ok none →
      ∃ p db2, savePoolToDatabase env db pd = (some p, db2) ∧
        p.poolAddress = pd.poolAddress ∧ p.apy = none ∧ p.tvl = none ∧
        p.volume24h = none ∧ db2.pools = db.pools ++ [p]) := by
  constructor
  · intro herr
    rw [savePoolToDatabase, if_neg (by simp [hnew]), herr]
  · intro hok
    rw [savePoolToDatabase, if_neg (by simp [hnew]), hok]
    exact ⟨_, _, rfl, rfl, rfl, rfl, rfl, rfl⟩

/-- Witness for the amended C5: with no pre-existing pool and an
environment that finds no enrichment data, the pool is persisted with
null `apy`, `tvl`, `volume24h`. -/
theorem c5_enrichment_failure_blocks_persistence_witness :
    ∃ p db2, savePoolToDatabase envNoData dbEmpty candA = (some p, db2) ∧
      p.poolAddress = candA.poolAddress ∧ p.apy = none ∧ p.tvl = none ∧
      p.volume24h = none ∧ db2.pools = dbEmpty.pools ++ [p] :=
  (c5_enrichment_failure_blocks_persistence envNoData dbEmpty candA rfl).2 rfl

/-! ### Claim C6 -/

/-- C6: the existence check keyed on the candidate's `poolAddress` makes
a second submission a no-op (no update, no error); when the first save
persisted the pool, the database holds exactly one record for that
`poolAddress` and the second save changes nothing; in general, starting
from a database without the address, two runs of the save leave at most
one record per `poolAddress` — first writer wins. -/
theorem c6_poolAddress_dedup (env : EnrichEnv) (db : Db) (pd : PoolCandidate) :
    (poolExists db pd.poolAddress = true → savePoolToDatabase env db pd = (none, db)) ∧
    (∀ p db1, countPoolsAt db pd.poolAddress = 0 →
      savePoolToDatabase env db pd = (some p, db1) →
      savePoolToDatabase env db1 pd = (none, db1) ∧
      countPoolsAt db1 pd.poolAddress = 1) ∧
    (countPoolsAt db pd.poolAddress = 0 →
      countPoolsAt (savePoolToDatabase env (savePoolToDatabase env db pd).2 pd).2
        pd.poolAddress ≤ 1) := by
  refine ⟨save_skip env db pd, ?_, ?_⟩
  · intro p db1 hcnt hsave
    obtain ⟨hpa, hpools⟩ := save_stored env db pd p db1 hsave
    have hcnt1 : countPoolsAt db1 pd.poolAddress = 1 :=
      countPoolsAt_after_append db db1 p pd.poolAddress hpools hpa hcnt
    have hex1 : poolExists db1 pd.poolAddress = true := by
      revert hcnt1
      cases hpe : poolExists db1 pd.poolAddress
      · rw [(poolExists_false_iff db1 pd.poolAddress).mp hpe]; omega
      · intro _; rfl
    exact ⟨save_skip env db1 pd hex1, hcnt1⟩
  · intro hcnt
    rcases save_unchanged_or_append env db pd with h1 | ⟨-, p, hpa, hpools⟩
    · rw [h1]
      rcases save_unchanged_or_append env db pd with h2 | ⟨-, q, hqa, hqpools⟩
      · rw [h2]; omega
      · have := countPoolsAt_after_append db _ q pd.poolAddress hqpools hqa hcnt
        omega
    · have hcnt1 : countPoolsAt (savePoolToDatabase env db pd).2 pd.poolAddress = 1 :=
        countPoolsAt_after_append db _ p pd.poolAddress hpools hpa hcnt
      have hex1 : poolExists (savePoolToDatabase env db pd).2 pd.poolAddress = true := by
        revert hcnt1
        cases hpe : poolExists (savePoolToDatabase env db pd).2 pd.poolAddress
        · rw [(poolExists_false_iff _ pd.poolAddress).mp hpe]; omega
        · intro _; rfl
      rw [save_skip env _ pd hex1]
      show countPoolsAt (savePoolToDatabase env db pd).2 pd.poolAddress ≤ 1
      omega

/-- Witness for C6 at concrete inputs: the first save stores `storedA`,
the second save is a no-op, and at most one record for `Pool1` remains. -/
theorem c6_poolAddress_dedup_witness :
    (savePoolToDatabase envNoData dbAfterA candA = (none, dbAfterA)) ∧
    (savePoolToDatabase envNoData dbAfterA candA = (none, dbAfterA) ∧
      countPoolsAt dbAfterA candA.poolAddress = 1) ∧
    countPoolsAt
      (savePoolToDatabase envNoData (savePoolToDatabase envNoData dbEmpty candA).2
        candA).2 candA.poolAddress ≤ 1 :=
  ⟨(c6_poolAddress_dedup envNoData dbAfterA candA).1 rfl,
   (c6_poolAddress_dedup envNoData dbEmpty candA).2.1 storedA dbAfterA rfl (by decide),
   (c6_poolAddress_dedup envNoData dbEmpty candA).2.2 rfl⟩

/-! ### Claim C7 -/

theorem withBackoffGo_ok {E A : Type} (f : Nat → Except E A) (m i : Nat) (v : A)
    (hi : i < m) (hfi : f i = .ok v) :
    withBackoffGo f m i = ⟨some (.ok v), [], 1⟩ := by
  rw [withBackoffGo, dif_pos hi, hfi]

theorem withBackoffGo_last_error {E A : Type} (f : Nat → Except E A) (m i : Nat)
    (e : E) (hi : i < m) (hlast : i = m - 1) (hfi : f i = .error e) :
    withBackoffGo f m i = ⟨some (.error e), [], 1⟩ := by
  rw [withBackoffGo, dif_pos hi, hfi]
  simp [hlast]

theorem withBackoffGo_retry {E A : Type} (f : Nat → Except E A) (m i : Nat)
    (e : E) (hi : i < m) (hnotlast : i ≠ m - 1) (hfi : f i = .error e) :
    withBackoffGo f m i =
      ⟨(withBackoffGo f m (i + 1)).result,
        backoffDelayMs i :: (withBackoffGo f m (i + 1)).delays,
        (withBackoffGo f m (i + 1)).calls + 1⟩ := by
  rw [withBackoffGo, dif_pos hi, hfi]
  simp [hnotlast]

theorem withBackoffGo_allFail {E A : Type} (errs : Nat → E) :
    ∀ (k m i : Nat), i < m → m - 1 - i = k →
      withBackoffGo (fun j => (.error (errs j) : Except E A)) m i =
        ⟨some (.error (errs (m - 1))), (List.range' i k).map backoffDelayMs, m - i⟩ := by
  intro k
  induction k with
  | zero =>
    intro m i hi hk
    have hlast : i = m - 1 := by omega
    rw [withBackoffGo_last_error (fun j => (.error (errs j) : Except E A)) m i
      (errs i) hi hlast rfl]
    subst hlast
    simp only [RetryTrace.mk.injEq]
    refine ⟨by trivial, by trivial, by omega⟩
  | succ k ih =>
    intro m i hi hk
    have hne : i ≠ m - 1 := by omega
    rw [withBackoffGo_retry (fun j => (.error (errs j) : Except E A)) m i
      (errs i) hi hne rfl, ih m (i + 1) (by omega) (by omega)]
    simp only [RetryTrace.mk.injEq]
    refine ⟨by trivial, ?_, by omega⟩
    rw [List.range'_succ]
    rfl

/-- C7: `RetryHelper.withBackoff` with an operation failing at attempts
0 and 1 and succeeding at attempt 2 returns the success value after the
two inter-attempt delays 1000ms then 2000ms and exactly 3 invocations;
with an operation that always fails it rethrows the error of the last
attempt after exactly `maxRetries` invocations, sleeping `2^i * 1000` ms
after failure `i` for `i < maxRetries - 1` — never before the first
attempt, and retrying every error identically (the error values are
arbitrary). -/
theorem c7_withBackoff_schedule :
    (∀ (E A : Type) (f : Nat → Except E A) (e0 e1 : E) (v : A) (maxRetries : Nat),
      f 0 = .error e0 → f 1 = .error e1 → f 2 = .ok v → 3 ≤ maxRetries →
      withBackoff f maxRetries = ⟨some (.ok v), [1000, 2000], 3⟩) ∧
    (∀ (E A : Type) (errs : Nat → E) (maxRetries : Nat), 1 ≤ maxRetries →
      withBackoff (fun i => (.error (errs i) : Except E A)) maxRetries =
        ⟨some (.error (errs (maxRetries - 1))),
          (List.range (maxRetries - 1)).map backoffDelayMs, maxRetries⟩) := by
  constructor
  · intro E A f e0 e1 v maxRetries h0 h1 h2 h3
    show withBackoffGo f maxRetries 0 = _
    rw [withBackoffGo_retry f maxRetries 0 e0 (by omega) (by omega) h0,
      withBackoffGo_retry f maxRetries 1 e1 (by omega) (by omega) h1,
      withBackoffGo_ok f maxRetries 2 v (by omega) h2]
    rfl
  · intro E A errs maxRetries h1
    show withBackoffGo _ maxRetries 0 = _
    rw [withBackoffGo_allFail errs (maxRetries - 1) maxRetries 0 (by omega) (by omega)]
    simp only [RetryTrace.mk.injEq]
    refine ⟨by trivial, ?_, by omega⟩
    rw [List.range_eq_range']

/-- Witness for C7: a run succeeding at attempt 2 with delays
1000ms/2000ms and one always failing with two attempts. -/
theorem c7_withBackoff_schedule_witness :
    withBackoff failTwiceThenOk 3 = ⟨some (.ok 99), [1000, 2000], 3⟩ ∧
    withBackoff (fun i => (.error i : Except Nat Nat)) 2 =
      ⟨some (.error 1), (List.range 1).map backoffDelayMs, 2⟩ :=
  ⟨c7_withBackoff_schedule.1 Nat Nat failTwiceThenOk 0 1 99 3 rfl rfl rfl (by omega),
   c7_withBackoff_schedule.2 Nat Nat (fun i => i) 2 (by omega)⟩

/-! ### Claim C8 -/

/-- C8: `wait()` records its `lastCall` timestamp at the end of the call
(at the release time, not the start), and a second call issued at any
time `now2` at or after the first call's completion is released at least
`delay` milliseconds after the first call's completion.  The clock model
treats `setTimeout` as sleeping exactly the requested duration. -/
theorem c8_rate_limiter_spacing (st : RateLimiterState) (now1 now2 : Nat)
    (h : (st.wait now1).1 ≤ now2) :
    ((st.wait now1).2).lastCall = (st.wait now1).1 ∧
    (st.wait now1).1 + st.delay ≤ (((st.wait now1).2).wait now2).1 := by
  constructor
  · by_cases hc : now1 - st.lastCall < st.delay <;> simp [RateLimiterState.wait, hc]
  · simp only [RateLimiterState.wait] at h ⊢
    split_ifs at h ⊢ <;> simp_all <;> omega

/-- Witness for C8: two immediate successive calls with delay 1000ms on
a fresh limiter are released 1000ms apart. -/
theorem c8_rate_limiter_spacing_witness :
    ((RateLimiterState.wait ⟨0, 1000⟩ 0).2).lastCall =
      (RateLimiterState.wait ⟨0, 1000⟩ 0).1 ∧
    (RateLimiterState.wait ⟨0, 1000⟩ 0).1 + (1000 : Nat) ≤
      (((RateLimiterState.wait ⟨0, 1000⟩ 0).2).wait 1000).1 :=
  c8_rate_limiter_spacing ⟨0, 1000⟩ 0 1000 (by decide)

/-! ### Claim C9 -/

theorem processItem_ne_null_ok (env : EnrichEnv) (db : Db) (item : BatchItem)
    (h : item ≠ BatchItem.nullItem) : ∃ db2, processItem env db item = .ok db2 := by
  cases item with
  | nullItem => exact absurd rfl h
  | prim => exact ⟨db, rfl⟩
  | tx t =>
    rw [processItem]
    split_ifs with hc
    · cases hp : parsePoolFromTransaction t with
      | none => exact ⟨db, rfl⟩
      | some pd => exact ⟨_, rfl⟩
    · exact ⟨db, rfl⟩

/-- Counterexample to C9 as stated: the modular endpoint hands
`req.body` straight to the `for ... of` loop, so a body that is a single
transaction notification (not an array) is not iterable, the loop
throws, and the endpoint returns 500 — it does not accept the
single-notification shape with a 200. -/
theorem c9_counterexample :
    handleWebhook envNoData (WebhookBody.obj txC9) dbEmpty = (500, dbEmpty) ∧
    (500 : Nat) ≠ 200 :=
  ⟨rfl, by decide⟩

/-- C9 (amended): the modular endpoint accepts an array body (and treats
a falsy body as an empty batch, returning 200); a single non-array
notification object raises a top-level error and returns 500; within an
array, items that are objects never abort the batch — parse and save
failures are absorbed into nulls — so any array free of null items
completes best-effort with 200. -/
theorem c9_webhook_body_handling (env : EnrichEnv) :
    (∀ t db, handleWebhook env (.obj t) db = (500, db)) ∧
    (∀ db, handleWebhook env .nullBody db = (200, db)) ∧
    (∀ items db, (∀ i ∈ items, i ≠ BatchItem.nullItem) →
      (handleWebhook env (.arr items) db).1 = 200) := by
  refine ⟨fun t db => rfl, fun db => rfl, ?_⟩
  have hT : ∀ (items : List BatchItem) (db : Db),
      (∀ i ∈ items, i ≠ BatchItem.nullItem) →
      (processWebhookPayload env items db).1 = true := by
    intro items
    induction items with
    | nil => intro db _; rfl
    | cons it rest ih =>
      intro db hnone
      obtain ⟨db2, hdb2⟩ :=
        processItem_ne_null_ok env db it (hnone it (List.mem_cons_self _ _))
      show (match processItem env db it with
        | .error _ => (false, db)
        | .ok db1 => processWebhookPayload env rest db1).1 = true
      rw [hdb2]
      exact ih db2 (fun i hi => hnone i (List.mem_cons_of_mem _ hi))
  intro items db hnone
  show (if (processWebhookPayload env items db).1 then 200 else 500,
    (processWebhookPayload env items db).2).1 = 200
  rw [hT items db hnone]
  rfl

/-- Witness for the amended C9 at concrete inputs: a single object body
yields 500, a falsy body yields 200, and an array of non-null items
yields 200. -/
theorem c9_webhook_body_handling_witness :
    handleWebhook envNoData (WebhookBody.obj txC9) dbEmpty = (500, dbEmpty) ∧
    handleWebhook envNoData WebhookBody.nullBody dbEmpty = (200, dbEmpty) ∧
    (handleWebhook envNoData
      (WebhookBody.arr [BatchItem.prim, BatchItem.tx txC9]) dbEmpty).1 = 200 :=
  ⟨(c9_webhook_body_handling envNoData).1 txC9 dbEmpty,
   (c9_webhook_body_handling envNoData).2.1 dbEmpty,
   (c9_webhook_body_handling envNoData).2.2 [BatchItem.prim, BatchItem.tx txC9]
     dbEmpty (by decide)⟩

/-! ### Claim C10 -/

theorem jsNumOrNull_eq_none_iff (o : Option Int) :
    jsNumOrNull o = none ↔ o = none ∨ o = some 0 := by
  cases o with
  | none => simp [jsNumOrNull]
  | some v =>
    simp only [jsNumOrNull]
    split_ifs with hv
    · simp [hv]
    · simp [hv]

theorem mem_insertByApyDesc (p q : StoredPool) (l : List StoredPool) :
    q ∈ insertByApyDesc p l ↔ q = p ∨ q ∈ l := by
  induction l with
  | nil => simp [insertByApyDesc]
  | cons r rs ih =>
    rw [insertByApyDesc]
    split_ifs with hlt
    · simp [List.mem_cons]
    · simp only [List.mem_cons, ih]
      tauto

theorem mem_sortByApyDesc (q : StoredPool) (l : List StoredPool) :
    q ∈ sortByApyDesc l ↔ q ∈ l := by
  induction l with
  | nil => simp [sortByApyDesc]
  | cons x xs ih =>
    show q ∈ insertByApyDesc x (sortByApyDesc xs) ↔ _
    rw [mem_insertByApyDesc]
    simp [List.mem_cons, ih]

/-- C10: `DatabaseClient.storePool` coerces every falsy `apy`, `tvl` and
`volume24h` — including the number 0 — to null before persisting, and
defaults a missing `source` to "Unknown"; consequently a pool whose
fetched APY is exactly 0 is stored with `apy = null` and never appears
in the non-null-APY listing of `getPoolsWithApy`. -/
theorem c10_storePool_falsy_coercion (pd : PoolInput) (id : Nat) (db : Db)
    (n : Nat) :
    ((mkStoredPool id pd).apy = none ↔ pd.apy = none ∨ pd.apy = some 0) ∧
    ((mkStoredPool id pd).tvl = none ↔ pd.tvl = none ∨ pd.tvl = some 0) ∧
    ((mkStoredPool id pd).volume24h = none ↔
      pd.volume24h = none ∨ pd.volume24h = some 0) ∧
    (pd.source = none → (mkStoredPool id pd).source = "Unknown") ∧
    (pd.apy = some 0 →
      (storePool db pd).1 ∉ getPoolsWithApy (storePool db pd).2 n) := by
  refine ⟨jsNumOrNull_eq_none_iff pd.apy, jsNumOrNull_eq_none_iff pd.tvl,
    jsNumOrNull_eq_none_iff pd.volume24h, ?_, ?_⟩
  · intro hs
    show jsStr pd.source "Unknown" = "Unknown"
    rw [hs]
    rfl
  · intro h0 hmem
    have hmem2 : (storePool db pd).1 ∈
        sortByApyDesc ((storePool db pd).2.pools.filter (fun p => p.apy.isSome)) :=
      List.take_subset n _ hmem
    have hmem3 := (mem_sortByApyDesc _ _).mp hmem2
    have hsome : ((storePool db pd).1.apy).isSome = true :=
      (List.mem_filter.mp hmem3).2
    have hnone : (storePool db pd).1.apy = none := by
      show jsNumOrNull pd.apy = none
      rw [h0]
      rfl
    rw [hnone] at hsome
    simp at hsome

/-- Witness for C10: storing a pool whose APY is exactly 0 yields a row
with null `apy` and "Unknown" source that the APY listing excludes. -/
theorem c10_storePool_falsy_coercion_witness :
    (mkStoredPool 0 inputZeroApy).apy = none ∧
    (mkStoredPool 0 inputZeroApy).source = "Unknown" ∧
    (storePool dbEmpty inputZeroApy).1 ∉
      getPoolsWithApy (storePool dbEmpty inputZeroApy).2 50 :=
  ⟨(c10_storePool_falsy_coercion inputZeroApy 0 dbEmpty 50).1.mpr (Or.inr rfl),
   (c10_storePool_falsy_coercion inputZeroApy 0 dbEmpty 50).2.2.2.1 rfl,
   (c10_storePool_falsy_coercion inputZeroApy 0 dbEmpty 50).2.2.2.2 rfl⟩

end Wildnet
